import Mathlib

/-!
Verification of the helios-cli snapshot-server security subsystem.

This file gives a shallow embedding of the `SnapshotSecurity` class
(filename/path validation, the per-IP connection and download guards, the
periodic sweep) and of the `BackupServer` catalog route and its download
rate limiter, and proves the specification claims about them.

Conventions of the embedding:
* JS strings are Lean `String`s; character-level operations run on `String.data`
  (all inputs of interest are ASCII, so UTF-16 length = char count).
* Timestamps (`Date.now()`) are `Nat` milliseconds.
* The single floating-point comparison in the sources,
  `timeoutCount / Math.max(requestCount, 1) > 0.5`, is embedded as the exact
  rational comparison `2 * timeoutCount > max requestCount 1` (equivalent for
  all counts small enough that the IEEE quotient is exact to within an ulp).
* Fallible filesystem calls (`fs.realpathSync`, `fs.statSync`) are
  `Option`-valued / Bool-valued function parameters.
-/

namespace HeliosSnapshots

/-! ## Character-list helpers mirroring the JS string primitives -/

/-- `sub` occurs as a contiguous substring of `s` (JS `String.prototype.includes`). -/
def containsSub (sub : List Char) : List Char → Bool
  | [] => sub.isEmpty
  | c :: cs => sub.isPrefixOf (c :: cs) || containsSub sub cs

/-- Strip the expected literal `p` from the front of `cs` (one step of regex
literal matching); `none` if `cs` does not start with `p`. -/
def dropPref : List Char → List Char → Option (List Char)
  | [], cs => some cs
  | _ :: _, [] => none
  | p :: ps, c :: cs => if p = c then dropPref ps cs else none

/-- Consume exactly `n` decimal digits (regex `\d{n}`), returning the rest. -/
def digitsN : Nat → List Char → Option (List Char)
  | 0, cs => some cs
  | _ + 1, [] => none
  | n + 1, c :: cs => if c.isDigit then digitsN n cs else none

/-- Consume one expected character, returning the rest. -/
def expectChar (c : Char) : List Char → Option (List Char)
  | [] => none
  | x :: xs => if x = c then some xs else none

/-- Decimal value of a digit run (JS `parseInt(..., 10)` on a `\d+` capture). -/
def digitsToNat (ds : List Char) : Nat :=
  ds.foldl (fun n c => 10 * n + (c.toNat - 48)) 0

/-! ## `SnapshotSecurity` configuration (src `this.config`) -/

def MAX_FILENAME_LENGTH : Nat := 255
def ALLOWED_EXTENSIONS : List String := [".gz", ".tar.gz"]
def ALLOWED_MIME_TYPES : List String :=
  ["application/gzip", "application/octet-stream", "application/json"]
def MAX_CONCURRENT_CONNECTIONS : Nat := 100
def MAX_SLOW_CONNECTIONS : Nat := 50
def SLOW_LORIS_BLOCK_DURATION : Nat := 600000
def SLOW_LORIS_GRACE_PERIOD : Nat := 30000
def DL_MAX_SLOW_DOWNLOADS : Nat := 5
def DL_BLOCK_DURATION : Nat := 300000

/-! ## Validator: filename regex

The source pattern is
`/^snapshot_\d+_\d{4}-\d{2}-\d{2}_\d{2}-\d{2}-\d{2}\.(gz|tar\.gz|header\.json)$/`.
Because `\d+` is followed by the non-digit `_` and all other counts are fixed,
the regex is deterministic: it is the maximal-munch parser below. -/

/-- Lift `expectChar` to a failing-state step. -/
def stepChar (c : Char) : Option (List Char) → Option (List Char)
  | none => none
  | some cs => expectChar c cs

/-- Lift `digitsN` to a failing-state step. -/
def stepDigits (n : Nat) : Option (List Char) → Option (List Char)
  | none => none
  | some cs => digitsN n cs

/-- Regex `\d+` (maximal munch; it is followed by a non-digit in the pattern,
so greedy matching is exact). -/
def stepDigitRun : Option (List Char) → Option (List Char)
  | none => none
  | some cs =>
    if (cs.takeWhile Char.isDigit).isEmpty then none
    else some (cs.dropWhile Char.isDigit)

/-- The allowed literal tails `\.(gz|tar\.gz|header\.json)$` of the filename
regex (each includes the leading dot). -/
def allowedRegexTails : List (List Char) :=
  [".gz".data, ".tar.gz".data, ".header.json".data]

/-- Final regex step: the remaining input must be one of the allowed literal
tails. -/
def tailOk : Option (List Char) → Bool
  | none => false
  | some rest => decide (rest ∈ allowedRegexTails)

/-- `FILENAME_REGEX.test(filename)`: the anchored source pattern
run as a deterministic maximal-munch parser, innermost step first. -/
def filenameRegexTest (cs : List Char) : Bool :=
  tailOk (stepDigits 2 (stepChar '-' (stepDigits 2 (stepChar '-' (stepDigits 2
    (stepChar '_' (stepDigits 2 (stepChar '-' (stepDigits 2 (stepChar '-'
    (stepDigits 4 (stepChar '_' (stepDigitRun
      (dropPref "snapshot_".data cs))))))))))))))

/-- The `dangerousChars` array of `validateFilename`; each entry is checked
with JS `includes`, i.e. substring containment. -/
def dangerousChars : List (List Char) :=
  [['.', '.'], ['\\'], ['/'], [':'], ['*'], ['?'], ['"'], ['<'], ['>'], ['|']]

/-- `SnapshotSecurity.validateFilename`.  `none` models a JS `null`/`undefined`
argument (falsy, like the empty string). -/
def validateFilename (filename : Option String) : Bool :=
  match filename with
  | none => false
  | some s =>
    if s = "" ∨ s.length > MAX_FILENAME_LENGTH then false
    else if ¬ filenameRegexTest s.data then false
    else ! dangerousChars.any (fun c => containsSub c s.data)

/-- `SnapshotSecurity.validateFileExtension`:
`ALLOWED_EXTENSIONS.some(ext => filename.toLowerCase().endsWith(ext))`. -/
def validateFileExtension (filename : String) : Bool :=
  ALLOWED_EXTENSIONS.any (fun ext => ext.data.isSuffixOf (filename.data.map Char.toLower))

/-! ## Validator: path containment (`validatePath`)

`path.resolve` and `fs.realpathSync` are parameters: `resolve` is the pure
path normalization and `realpath` the (fallible) symlink-resolving
canonicalization of the underlying filesystem. A `realpath` failure models the
thrown exception (caught, returning `false`). -/

/-- `SnapshotSecurity.validatePath`.  Mirrors:
`resolvedPath.startsWith(resolvedBase)` pre-check (early false), then
`realpathSync(resolvedPath).startsWith(realpathSync(resolvedBase))`,
with any exception giving `false`. -/
def validatePath (resolve : String → String) (realpath : String → Option String)
    (filePath baseDir : String) : Bool :=
  if (resolve baseDir).data.isPrefixOf (resolve filePath).data then
    match realpath (resolve filePath), realpath (resolve baseDir) with
    | some cp, some cb => cb.data.isPrefixOf cp.data
    | _, _ => false
  else false

/-- Spec-side notion used by the claim: canonical path `cp` is a descendant of
canonical directory `cb` (equal to it, or strictly below it past a path
separator). -/
def isDescendantOf (cp cb : String) : Bool :=
  cp == cb || (cb.data ++ ['/']).isPrefixOf cp.data

/-! ## Validator: MIME resolution -/

/-- Suffix of `cs` starting at its last `'.'`, if any. -/
def lastDotSuffix : List Char → Option (List Char)
  | [] => none
  | c :: cs =>
    match lastDotSuffix cs with
    | some e => some e
    | none => if c = '.' then some (c :: cs) else none

/-- Node `path.extname` on a bare filename (no directory separators): the
suffix from the last `'.'`, except that a dot in leading position (dotfile)
or a dotless name yields `""`. -/
def extname (filename : String) : List Char :=
  match filename.data with
  | [] => []
  | _ :: cs => (lastDotSuffix cs).getD []

/-- `SnapshotSecurity.getMimeType`: lookup of the lower-cased extension in
`{'.gz': gzip, '.tar.gz': gzip, '.json': json}` with `application/octet-stream`
fallback. -/
def getMimeType (filename : String) : String :=
  if (extname filename).map Char.toLower = ".gz".data then "application/gzip"
  else if (extname filename).map Char.toLower = ".tar.gz".data then "application/gzip"
  else if (extname filename).map Char.toLower = ".json".data then "application/json"
  else "application/octet-stream"

/-- `SnapshotSecurity.validateMimeType`. -/
def validateMimeType (filename : String) : Bool :=
  ALLOWED_MIME_TYPES.contains (getMimeType filename)

/-! ## ConnectionGuard: per-IP tracker for ordinary requests

One entry of `this.connectionMap`.  Field names follow the source object
literal in `addConnection`; `transferRate`-style float fields do not occur
here.  Times are `Nat` milliseconds. -/

structure ConnTracker where
  connections : Nat
  slowConnections : Nat
  lastActivity : Nat
  isBlocked : Bool
  blockUntil : Nat
  firstConnection : Nat
  requestCount : Nat
  timeoutCount : Nat
deriving Repr, DecidableEq

/-- The tracker object created on an IP's first request (`addConnection`). -/
def freshConnTracker (now : Nat) : ConnTracker :=
  { connections := 0, slowConnections := 0, lastActivity := now,
    isBlocked := false, blockUntil := 0, firstConnection := now,
    requestCount := 0, timeoutCount := 0 }

/-- The slow-loris blocking condition of `addConnection`, evaluated on the
tracker *after* its increments.  `timeoutRatio > 0.5` is embedded exactly as
`2 * timeoutCount > max requestCount 1`. -/
def connBlockCond (now : Nat) (t : ConnTracker) : Bool :=
  let timeSinceFirst := now - t.firstConnection
  let adaptiveThreshold :=
    min MAX_CONCURRENT_CONNECTIONS (max 20 (timeSinceFirst / 5000))
  decide (t.connections > adaptiveThreshold) &&
  decide (timeSinceFirst > SLOW_LORIS_GRACE_PERIOD) &&
  (decide (2 * t.timeoutCount > max t.requestCount 1) ||
   decide (t.connections > MAX_SLOW_CONNECTIONS))

/-- The increments of `addConnection`: `connections++`, `lastActivity` touch,
`requestCount++`. -/
def connIncrement (now : Nat) (t0 : ConnTracker) : ConnTracker :=
  { t0 with connections := t0.connections + 1,
            lastActivity := now,
            requestCount := t0.requestCount + 1 }

/-- The block assignment of `addConnection` when the condition fires. -/
def connBlockApply (now : Nat) (t1 : ConnTracker) : ConnTracker :=
  if connBlockCond now t1 then
    { t1 with isBlocked := true, blockUntil := now + SLOW_LORIS_BLOCK_DURATION }
  else t1

/-- `SnapshotSecurity.addConnection` acting on this IP's map entry
(`none` = IP not yet in `connectionMap`). -/
def addConnection (now : Nat) (entry : Option ConnTracker) : ConnTracker :=
  connBlockApply now (connIncrement now (entry.getD (freshConnTracker now)))

/-- JS `Math.ceil((blockUntil - now) / 1000)` on nonnegative millisecond
differences. -/
def ceilSeconds (deltaMs : Nat) : Nat := (deltaMs + 999) / 1000

/-- Outcome of the slow-loris admission middleware for one request. -/
inductive ConnDecision where
  | reject (retryAfter : Nat)
  | admitted (t : ConnTracker)
deriving Repr, DecidableEq

/-- The map entry as it stands right before `addConnection` runs on an
admitted request: the existing entry with an expired block lazily cleared by
`isIpBlocked` (fresh entry if the IP is new). -/
def admittedConnPre (now : Nat) (entry : Option ConnTracker) : ConnTracker :=
  match entry with
  | none => freshConnTracker now
  | some t => if t.isBlocked then { t with isBlocked := false, blockUntil := 0 } else t

/-- The non-download path of `getSlowLorisMiddleware`: `isIpBlocked` check
(429 with `retryAfter`) or `addConnection`.  Timer arming
(`setupConnectionTimeouts`) has no effect on the tracker at admission time. -/
def slowLorisStep (now : Nat) (entry : Option ConnTracker) : ConnDecision :=
  match entry with
  | none => .admitted (addConnection now none)
  | some t =>
    if t.isBlocked ∧ now < t.blockUntil then
      .reject (ceilSeconds (t.blockUntil - now))
    else
      .admitted (addConnection now (some (admittedConnPre now (some t))))

/-! ## DownloadGuard: per-IP tracker for download requests

One entry of `this.downloadMap`.  The float field `transferRate` and the
byte-level monitoring (`setupDownloadMonitoring`) are outside the claims
settled here and are not modelled. -/

structure DlTracker where
  activeDownloads : Nat
  slowDownloads : Nat
  totalBytesTransferred : Nat
  lastActivity : Nat
  isBlocked : Bool
  blockUntil : Nat
  downloadStartTime : Nat
  lastTransferTime : Nat
deriving Repr, DecidableEq

/-- The tracker object created on an IP's first download (`addDownload`). -/
def freshDlTracker (now : Nat) : DlTracker :=
  { activeDownloads := 0, slowDownloads := 0, totalBytesTransferred := 0,
    lastActivity := now, isBlocked := false, blockUntil := 0,
    downloadStartTime := now, lastTransferTime := now }

/-- The increments of `addDownload`: `activeDownloads++` and timestamp
touches. -/
def dlIncrement (now : Nat) (t0 : DlTracker) : DlTracker :=
  { t0 with activeDownloads := t0.activeDownloads + 1,
            lastActivity := now,
            downloadStartTime := now,
            lastTransferTime := now }

/-- The block assignment of `addDownload` when the strict concurrency cap is
exceeded. -/
def dlBlockApply (now : Nat) (t1 : DlTracker) : DlTracker :=
  if t1.activeDownloads > DL_MAX_SLOW_DOWNLOADS then
    { t1 with isBlocked := true, blockUntil := now + DL_BLOCK_DURATION }
  else t1

/-- `SnapshotSecurity.addDownload` acting on this IP's map entry. -/
def addDownload (now : Nat) (entry : Option DlTracker) : DlTracker :=
  dlBlockApply now (dlIncrement now (entry.getD (freshDlTracker now)))

/-- Outcome of the download admission middleware for one request. -/
inductive DlDecision where
  | reject (retryAfter : Nat)
  | admitted (t : DlTracker)
deriving Repr, DecidableEq

/-- The map entry right before `addDownload` on an admitted download request
(expired block lazily cleared by `isDownloadBlocked`). -/
def admittedDlPre (now : Nat) (entry : Option DlTracker) : DlTracker :=
  match entry with
  | none => freshDlTracker now
  | some t => if t.isBlocked then { t with isBlocked := false, blockUntil := 0 } else t

/-- `SnapshotSecurity.handleDownloadProtection`: `isDownloadBlocked` check
(429 with `retryAfter`) or `addDownload`. -/
def handleDownloadProtection (now : Nat) (entry : Option DlTracker) : DlDecision :=
  match entry with
  | none => .admitted (addDownload now none)
  | some t =>
    if t.isBlocked ∧ now < t.blockUntil then
      .reject (ceilSeconds (t.blockUntil - now))
    else
      .admitted (addDownload now (some (admittedDlPre now (some t))))

/-! ## Periodic sweep (`cleanupExpiredConnections`) -/

/-- The connection-map removal condition of `cleanupExpiredConnections`. -/
def connSweepRemoves (now : Nat) (t : ConnTracker) : Bool :=
  (decide (now - t.lastActivity > 600000) && decide (t.connections = 0)) ||
  (t.isBlocked && decide (now ≥ t.blockUntil))

/-- The download-map removal condition of `cleanupExpiredConnections`. -/
def dlSweepRemoves (now : Nat) (t : DlTracker) : Bool :=
  (decide (now - t.lastActivity > 1800000) && decide (t.activeDownloads = 0)) ||
  (t.isBlocked && decide (now ≥ t.blockUntil))

/-- `cleanupExpiredConnections` acting on the connection map (as an
association list: iteration deletes exactly the entries matching the removal
condition). -/
def cleanupConnMap (now : Nat) (m : List (String × ConnTracker)) :
    List (String × ConnTracker) :=
  m.filter (fun p => ! connSweepRemoves now p.2)

/-- `cleanupExpiredConnections` acting on the download map. -/
def cleanupDlMap (now : Nat) (m : List (String × DlTracker)) :
    List (String × DlTracker) :=
  m.filter (fun p => ! dlSweepRemoves now p.2)

/-- The claim's removal condition, written from the spec sentence: reaped once
idle (no activity for 10 min, nothing active) and not blocked, or once a block
has expired and the IP is idle. -/
def specConnSweepRemoves (now : Nat) (t : ConnTracker) : Bool :=
  let idle := decide (now - t.lastActivity > 600000) && decide (t.connections = 0)
  (idle && ! t.isBlocked) ||
  (t.isBlocked && decide (now ≥ t.blockUntil) && idle)

/-! ## Rate limiters

The repository configures `express-rate-limit` but the library itself is not
part of the sources.  Window mechanics are therefore modelled from the spec;
the per-route configuration (window length, maxima, the 429 handler bodies
with their constant `retryAfter: 60`, `skipSuccessfulRequests`) is taken from
`getMiddleware` and `BackupServer.setupMiddleware`. -/

/-- Modelled from the spec: the per-IP counter state of one fixed 60-second
rate-limit window (the `express-rate-limit` store, absent from src/). -/
structure RateWindow where
  hits : Nat
  resetAt : Nat
deriving Repr, DecidableEq

/-- Modelled from the spec: window rollover — an elapsed window restarts with
zero hits for another 60 seconds. -/
def rlReset (now : Nat) (w : RateWindow) : RateWindow :=
  if w.resetAt ≤ now then { hits := 0, resetAt := now + 60000 } else w

/-- Modelled from the spec: one request hitting a fixed-window limiter with
maximum `maxHits`; returns `some retryAfter` on a 429 (the handler's constant
hint `ra`, from src) or `none` when admitted, with the updated window. -/
def rlStep (maxHits ra now : Nat) (w : RateWindow) : Option Nat × RateWindow :=
  if (rlReset now w).hits + 1 > maxHits then
    (some ra, { hits := (rlReset now w).hits + 1, resetAt := (rlReset now w).resetAt })
  else
    (none, { hits := (rlReset now w).hits + 1, resetAt := (rlReset now w).resetAt })

/-- The download-route limiter of `BackupServer.setupMiddleware`:
`windowMs: 60*1000, max: 10`, handler `retryAfter: 60`. -/
def rlDownloadStep (now : Nat) (w : RateWindow) : Option Nat × RateWindow :=
  rlStep 10 60 now w

/-- `skipSuccessfulRequests: true`: a successfully completed request is
uncounted from the window. -/
def rlUncountSuccess (w : RateWindow) : RateWindow :=
  { w with hits := w.hits - 1 }

/-- The general limiter of `getMiddleware`: `windowMs: 60*1000, max: 200`,
handler `retryAfter: 60` (its `skip` for download GETs is handled in the
pipeline below). -/
def rlGeneralStep (now : Nat) (w : RateWindow) : Option Nat × RateWindow :=
  rlStep 200 60 now w

/-- Attempts admitted out of `n` back-to-back download-route requests at time
`now` (nothing completing in between), counting via `rlDownloadStep`. -/
def runDlAttempts (now : Nat) (w : RateWindow) : Nat → Nat × RateWindow
  | 0 => (0, w)
  | n + 1 =>
    let s := rlDownloadStep now w
    let rest := runDlAttempts now s.2 n
    ((if s.1.isNone then 1 else 0) + rest.1, rest.2)

/-! ## The middleware pipeline (`getMiddleware` order)

`getMiddleware` returns, in order: `helmet` (response headers only),
the slow-loris middleware, `morgan` (logging), the general rate limiter,
the JSON/urlencoded body parsers (no effect on the requests modelled), and
the request-validation (header-length) middleware; then routing happens.
Only the stages that can answer or mutate guard state appear in the model. -/

/-- The request data the pipeline inspects.  `isDownloadGet` is
`req.path.startsWith('/snapshots/') && req.method === 'GET'`; header fields
are lengths (`none` = header absent). -/
structure Request where
  isDownloadGet : Bool
  uaLen : Option Nat
  acceptLen : Option Nat
  urlLen : Nat
deriving Repr, DecidableEq

/-- Server-side per-IP state threaded through the pipeline. -/
structure ServerState where
  conn : Option ConnTracker
  dl : Option DlTracker
  generalWindow : RateWindow
deriving Repr, DecidableEq

/-- Possible pipeline outcomes for the modelled stages. -/
inductive Response where
  | tooMany (retryAfter : Nat)
  | badRequest
  | routed
deriving Repr, DecidableEq

/-- The checks of `getRequestValidationMiddleware`: User-Agent length >500,
Accept length >1000, or URL length >2048 each answer
400 `{error: 'Invalid request'}`. -/
def headerViolation (r : Request) : Bool :=
  (match r.uaLen with | some l => decide (l > 500) | none => false) ||
  (match r.acceptLen with | some l => decide (l > 1000) | none => false) ||
  decide (r.urlLen > 2048)

/-- One request through the `getMiddleware` stack in source order:
slow-loris/download admission, then the general rate limiter (which skips
GET `/snapshots/...`), then the header-length validation, then the route. -/
def processRequest (now : Nat) (r : Request) (st : ServerState) :
    Response × ServerState :=
  if r.isDownloadGet then
    match handleDownloadProtection now st.dl with
    | .reject ra => (.tooMany ra, st)
    | .admitted t' =>
      let st1 : ServerState := { st with dl := some t' }
      if headerViolation r then (.badRequest, st1) else (.routed, st1)
  else
    match slowLorisStep now st.conn with
    | .reject ra => (.tooMany ra, st)
    | .admitted t' =>
      let st1 : ServerState := { st with conn := some t' }
      match rlGeneralStep now st1.generalWindow with
      | (some ra, w') => (.tooMany ra, { st1 with generalWindow := w' })
      | (none, w') =>
        let st2 : ServerState := { st1 with generalWindow := w' }
        if headerViolation r then (.badRequest, st2) else (.routed, st2)

/-! ## Catalog (`BackupServer` GET `/snapshots`) -/

/-- `BackupServer.extractBlockId` regex search `/snapshot_(\d+)_/`: leftmost
position where the literal, a nonempty digit run and the trailing `_` all
match. -/
def extractFromChars : List Char → Option Nat
  | [] => none
  | c :: cs =>
    match dropPref "snapshot_".data (c :: cs) with
    | some r =>
      let ds := r.takeWhile Char.isDigit
      if ¬ ds.isEmpty ∧ (r.dropWhile Char.isDigit).head? = some '_' then
        some (digitsToNat ds)
      else extractFromChars cs
    | none => extractFromChars cs

/-- `BackupServer.extractBlockId`: the captured number, or 0 when the
pattern does not occur. -/
def extractBlockId (filename : String) : Nat :=
  (extractFromChars filename.data).getD 0

/-- The order induced by the comparator
`(a, b) => extractBlockId(b) - extractBlockId(a)`: descending block id. -/
def blockIdDescRel (a b : String) : Prop :=
  extractBlockId b ≤ extractBlockId a

instance : DecidableRel blockIdDescRel :=
  fun a b => inferInstanceAs (Decidable (extractBlockId b ≤ extractBlockId a))

instance : IsTotal String blockIdDescRel :=
  ⟨fun a b => (Nat.le_total (extractBlockId b) (extractBlockId a)).imp id id⟩

instance : IsTrans String blockIdDescRel :=
  ⟨fun _ _ _ hab hbc => Nat.le_trans hbc hab⟩

/-- JS `Array.prototype.sort` with the block-id comparator: a stable sort
under `blockIdDescRel` (stable sorts agree, so insertion sort embeds it). -/
def sortByBlockIdDesc (files : List String) : List String :=
  List.insertionSort blockIdDescRel files

/-- Result of the GET `/snapshots` route.  `error 500` is the catch-all of
the route's try/catch. -/
inductive CatalogResponse where
  | ok (snapshots : List String) (totalCount : Nat)
  | error (code : Nat)
deriving Repr, DecidableEq

/-- GET `/snapshots`: absent directory answers the empty catalog before any
scan; otherwise the non-recursive entry list is filtered by
`validateFileExtension`, sorted by descending block id, and each kept entry is
`statSync`ed (a failure there falls into the 500 catch-all).  `dir` is the
directory's entry list (`none` = `fs.existsSync` false); `statOk` models
`fs.statSync` succeeding per file. -/
def getSnapshotsRoute (dir : Option (List String)) (statOk : String → Bool) :
    CatalogResponse :=
  match dir with
  | none => .ok [] 0
  | some files =>
    let kept := sortByBlockIdDesc (files.filter validateFileExtension)
    if kept.all statOk then .ok kept kept.length else .error 500

/-! ## Spec-side formulations and concrete scenario data -/

/-- The filename pattern as the spec words it:
`snapshot_<digits>_<YYYY-MM-DD>_<HH-MM-SS>.(gz|tar.gz|header.json)` — a
nonempty digit run, then fixed-width digit groups with the literal
separators, then one of the three allowed tails. -/
def snapshotNamePattern (cs : List Char) : Prop :=
  ∃ ds y mo d h mi s tail,
    ds ≠ [] ∧ (∀ c ∈ ds, c.isDigit = true) ∧
    y.length = 4 ∧ (∀ c ∈ y, c.isDigit = true) ∧
    mo.length = 2 ∧ (∀ c ∈ mo, c.isDigit = true) ∧
    d.length = 2 ∧ (∀ c ∈ d, c.isDigit = true) ∧
    h.length = 2 ∧ (∀ c ∈ h, c.isDigit = true) ∧
    mi.length = 2 ∧ (∀ c ∈ mi, c.isDigit = true) ∧
    s.length = 2 ∧ (∀ c ∈ s, c.isDigit = true) ∧
    tail ∈ allowedRegexTails ∧
    cs = "snapshot_".data ++ ds ++ '_' ::
      (y ++ '-' :: (mo ++ '-' :: (d ++ '_' :: (h ++ '-' :: (mi ++ '-' :: (s ++ tail))))))

/-- A filesystem in which `/base/evil` is a symlink whose target lies outside
`/base`, and every other path is canonical. -/
def symlinkFS : String → Option String :=
  fun s => if s = "/base/evil" then some "/outside/secret" else some s

/-- A tracker blocked until t=2500 (a slow-loris block in force). -/
def blockedConnTracker : ConnTracker :=
  { connections := 3, slowConnections := 0, lastActivity := 900,
    isBlocked := true, blockUntil := 2500, firstConnection := 0,
    requestCount := 3, timeoutCount := 0 }

/-- An unblocked tracker with 51 open connections from an IP first seen at
t=0 (past the grace period at t=40000). -/
def busyConnTracker : ConnTracker :=
  { connections := 51, slowConnections := 0, lastActivity := 39000,
    isBlocked := false, blockUntil := 0, firstConnection := 0,
    requestCount := 51, timeoutCount := 0 }

/-- A download tracker with 5 active downloads (the cap), unblocked. -/
def fiveDlTracker : DlTracker :=
  { activeDownloads := 5, slowDownloads := 0, totalBytesTransferred := 0,
    lastActivity := 0, isBlocked := false, blockUntil := 0,
    downloadStartTime := 0, lastTransferTime := 0 }

/-- A download tracker blocked until t=5000. -/
def blockedDlTracker : DlTracker :=
  { activeDownloads := 1, slowDownloads := 0, totalBytesTransferred := 0,
    lastActivity := 0, isBlocked := true, blockUntil := 5000,
    downloadStartTime := 0, lastTransferTime := 0 }

/-- A tracker whose block expired at t=500000 but whose IP is anything but
idle at t=1000000: activity right now and 5 open connections. -/
def expiredActiveTracker : ConnTracker :=
  { connections := 5, slowConnections := 0, lastActivity := 1000000,
    isBlocked := true, blockUntil := 500000, firstConnection := 0,
    requestCount := 9, timeoutCount := 2 }

/-- A non-download request whose User-Agent header is 501 chars long. -/
def oversizedUaRequest : Request :=
  { isDownloadGet := false, uaLen := some 501, acceptLen := none, urlLen := 10 }

/-- Server state in which the request's IP is connection-blocked until
t=2500. -/
def blockedIpState : ServerState :=
  { conn := some blockedConnTracker, dl := none,
    generalWindow := { hits := 0, resetAt := 60000 } }

/-- Server state for a first-time IP with a fresh rate window. -/
def freshIpState : ServerState :=
  { conn := none, dl := none, generalWindow := { hits := 0, resetAt := 60000 } }

/-! ## Parser characterization lemmas -/

lemma dropPref_eq_some {p cs r : List Char} :
    dropPref p cs = some r ↔ cs = p ++ r := by
  induction p generalizing cs with
  | nil => simp [dropPref]
  | cons a as ih =>
    cases cs with
    | nil => simp [dropPref]
    | cons c cs' =>
      by_cases hac : a = c
      · subst hac
        simp [dropPref, ih]
      · have hca : ¬ c = a := fun h => hac h.symm
        simp [dropPref, hac, hca]

lemma expectChar_eq_some {c : Char} {cs r : List Char} :
    expectChar c cs = some r ↔ cs = c :: r := by
  cases cs with
  | nil => simp [expectChar]
  | cons x xs =>
    by_cases hx : x = c
    · subst hx; simp [expectChar]
    · have hcx : ¬ c = x := fun h => hx h.symm
      simp [expectChar, hx, hcx]

lemma digitsN_eq_some {n : Nat} {cs r : List Char} :
    digitsN n cs = some r ↔
      ∃ d, d.length = n ∧ (∀ c ∈ d, c.isDigit = true) ∧ cs = d ++ r := by
  induction n generalizing cs with
  | zero =>
    simp only [digitsN, Option.some.injEq]
    constructor
    · rintro rfl
      exact ⟨[], rfl, by simp, rfl⟩
    · rintro ⟨d, hd, -, rfl⟩
      rw [List.length_eq_zero] at hd
      simp [hd]
  | succ n ih =>
    cases cs with
    | nil =>
      simp only [digitsN]
      constructor
      · intro h; exact Option.noConfusion h
      · rintro ⟨d, hlen, -, h⟩
        have hl := congrArg List.length h
        simp [hlen] at hl
        omega
    | cons c cs' =>
      by_cases hc : c.isDigit
      · simp only [digitsN, if_pos hc, ih]
        constructor
        · rintro ⟨d, hlen, hdig, rfl⟩
          refine ⟨c :: d, by simp [hlen], ?_, rfl⟩
          intro x hx
          cases hx with
          | head => exact hc
          | tail _ hx => exact hdig x hx
        · rintro ⟨d, hlen, hdig, heq⟩
          cases d with
          | nil => simp at hlen
          | cons e d' =>
            rw [List.cons_append] at heq
            injection heq with h1 h2
            subst h1
            exact ⟨d', by simpa using hlen,
              fun x hx => hdig x (List.mem_cons_of_mem _ hx), h2⟩
      · simp only [digitsN, if_neg hc]
        constructor
        · intro h; exact Option.noConfusion h
        · rintro ⟨d, hlen, hdig, heq⟩
          cases d with
          | nil => simp at hlen
          | cons e d' =>
            rw [List.cons_append] at heq
            injection heq with h1 h2
            subst h1
            exact absurd (hdig c (List.mem_cons_self ..)) (by simpa using hc)

lemma stepChar_eq_some {c : Char} {o : Option (List Char)} {r : List Char} :
    stepChar c o = some r ↔ o = some (c :: r) := by
  cases o with
  | none => simp [stepChar]
  | some cs => simp [stepChar, expectChar_eq_some]

lemma stepDigits_eq_some {n : Nat} {o : Option (List Char)} {r : List Char} :
    stepDigits n o = some r ↔
      ∃ d, d.length = n ∧ (∀ c ∈ d, c.isDigit = true) ∧ o = some (d ++ r) := by
  cases o with
  | none => simp [stepDigits]
  | some cs =>
    simp only [stepDigits, digitsN_eq_some, Option.some.injEq]

lemma stepDigitRun_eq_some {o : Option (List Char)} {r : List Char} :
    stepDigitRun o = some r ↔
      ∃ cs, o = some cs ∧ (cs.takeWhile Char.isDigit).isEmpty = false ∧
        r = cs.dropWhile Char.isDigit := by
  cases o with
  | none => simp [stepDigitRun]
  | some cs =>
    by_cases h : (cs.takeWhile Char.isDigit).isEmpty
    · simp only [stepDigitRun, if_pos h, Option.some.injEq]
      constructor
      · intro hcontra; exact Option.noConfusion hcontra
      · rintro ⟨cs', hcs, hne, -⟩
        subst hcs
        rw [h] at hne
        exact Bool.noConfusion hne
    · simp only [stepDigitRun, if_neg h, Option.some.injEq]
      constructor
      · rintro rfl
        exact ⟨cs, rfl, by simpa using h, rfl⟩
      · rintro ⟨cs', hcs, -, rfl⟩
        rw [hcs]

lemma tailOk_eq_true {o : Option (List Char)} :
    tailOk o = true ↔ ∃ rest, o = some rest ∧ rest ∈ allowedRegexTails := by
  cases o with
  | none => simp [tailOk]
  | some rest => simp [tailOk]

lemma takeWhile_digits_append (ds tl : List Char)
    (h : ∀ c ∈ ds, c.isDigit = true) :
    (ds ++ '_' :: tl).takeWhile Char.isDigit = ds ∧
    (ds ++ '_' :: tl).dropWhile Char.isDigit = '_' :: tl := by
  induction ds with
  | nil =>
    constructor <;> simp [List.takeWhile_cons, List.dropWhile_cons]
  | cons a ds' ih =>
    have ha := h a (List.mem_cons_self ..)
    obtain ⟨iht, ihd⟩ := ih (fun c hc => h c (List.mem_cons_of_mem _ hc))
    constructor
    · simp [List.takeWhile_cons, ha, iht]
    · simp [List.dropWhile_cons, ha, ihd]

/-- The implemented regex test accepts exactly the names of the spec's
pattern `snapshot_<digits>_<YYYY-MM-DD>_<HH-MM-SS>.(gz|tar.gz|header.json)`. -/
lemma filenameRegexTest_iff {cs : List Char} :
    filenameRegexTest cs = true ↔ snapshotNamePattern cs := by
  constructor
  · intro hx
    rw [filenameRegexTest, tailOk_eq_true] at hx
    obtain ⟨tail, h14, htail⟩ := hx
    rw [stepDigits_eq_some] at h14
    obtain ⟨s, hsl, hsd, h13⟩ := h14
    rw [stepChar_eq_some, stepDigits_eq_some] at h13
    obtain ⟨mi, hmil, hmid, h11⟩ := h13
    rw [stepChar_eq_some, stepDigits_eq_some] at h11
    obtain ⟨hh, hhl, hhd, h9⟩ := h11
    rw [stepChar_eq_some, stepDigits_eq_some] at h9
    obtain ⟨d, hdl, hdd, h7⟩ := h9
    rw [stepChar_eq_some, stepDigits_eq_some] at h7
    obtain ⟨mo, hmol, hmod, h5⟩ := h7
    rw [stepChar_eq_some, stepDigits_eq_some] at h5
    obtain ⟨y, hyl, hyd, h3⟩ := h5
    rw [stepChar_eq_some, stepDigitRun_eq_some] at h3
    obtain ⟨cs0, h1, hne, hdrop⟩ := h3
    rw [dropPref_eq_some] at h1
    refine ⟨cs0.takeWhile Char.isDigit, y, mo, d, hh, mi, s, tail, ?_,
      fun c hc => List.mem_takeWhile_imp hc, hyl, hyd, hmol, hmod, hdl, hdd,
      hhl, hhd, hmil, hmid, hsl, hsd, htail, ?_⟩
    · intro hnil
      rw [hnil] at hne
      exact Bool.noConfusion hne
    · have hsplit : cs0 = cs0.takeWhile Char.isDigit ++
          ('_' :: (y ++ '-' :: (mo ++ '-' :: (d ++ '_' ::
            (hh ++ '-' :: (mi ++ '-' :: (s ++ tail))))))) := by
        conv_lhs => rw [← List.takeWhile_append_dropWhile Char.isDigit cs0]
        rw [← hdrop]
      rw [h1]
      conv_lhs => rw [hsplit]
      rw [List.append_assoc]
  · rintro ⟨ds, y, mo, d, hh, mi, s, tail, hne, hdsd, hyl, hyd, hmol, hmod,
      hdl, hdd, hhl, hhd, hmil, hmid, hsl, hsd, htail, rfl⟩
    set R6 := s ++ tail with hR6
    set R5 := mi ++ '-' :: R6 with hR5
    set R4 := hh ++ '-' :: R5 with hR4
    set R3 := d ++ '_' :: R4 with hR3
    set R2 := mo ++ '-' :: R3 with hR2
    set R1 := y ++ '-' :: R2 with hR1
    have sp := takeWhile_digits_append ds R1 hdsd
    have e1 : dropPref "snapshot_".data ("snapshot_".data ++ ds ++ '_' :: R1)
        = some (ds ++ '_' :: R1) :=
      dropPref_eq_some.mpr (List.append_assoc _ _ _)
    have e2 : stepDigitRun (some (ds ++ '_' :: R1)) = some ('_' :: R1) := by
      rw [stepDigitRun_eq_some]
      refine ⟨ds ++ '_' :: R1, rfl, ?_, sp.2.symm⟩
      rw [sp.1]
      cases ds with
      | nil => exact absurd rfl hne
      | cons a l => rfl
    have e3 : stepChar '_' (some ('_' :: R1)) = some R1 := stepChar_eq_some.mpr rfl
    have e4 : stepDigits 4 (some R1) = some ('-' :: R2) :=
      stepDigits_eq_some.mpr ⟨y, hyl, hyd, by rw [hR1]⟩
    have e5 : stepChar '-' (some ('-' :: R2)) = some R2 := stepChar_eq_some.mpr rfl
    have e6 : stepDigits 2 (some R2) = some ('-' :: R3) :=
      stepDigits_eq_some.mpr ⟨mo, hmol, hmod, by rw [hR2]⟩
    have e7 : stepChar '-' (some ('-' :: R3)) = some R3 := stepChar_eq_some.mpr rfl
    have e8 : stepDigits 2 (some R3) = some ('_' :: R4) :=
      stepDigits_eq_some.mpr ⟨d, hdl, hdd, by rw [hR3]⟩
    have e9 : stepChar '_' (some ('_' :: R4)) = some R4 := stepChar_eq_some.mpr rfl
    have e10 : stepDigits 2 (some R4) = some ('-' :: R5) :=
      stepDigits_eq_some.mpr ⟨hh, hhl, hhd, by rw [hR4]⟩
    have e11 : stepChar '-' (some ('-' :: R5)) = some R5 := stepChar_eq_some.mpr rfl
    have e12 : stepDigits 2 (some R5) = some ('-' :: R6) :=
      stepDigits_eq_some.mpr ⟨mi, hmil, hmid, by rw [hR5]⟩
    have e13 : stepChar '-' (some ('-' :: R6)) = some R6 := stepChar_eq_some.mpr rfl
    have e14 : stepDigits 2 (some R6) = some tail :=
      stepDigits_eq_some.mpr ⟨s, hsl, hsd, by rw [hR6]⟩
    rw [filenameRegexTest, e1, e2, e3, e4, e5, e6, e7, e8, e9, e10, e11, e12,
      e13, e14]
    simp [tailOk, htail]

/-! ## Guard helper lemmas -/

lemma admittedConnPre_not_blocked (now : Nat) (entry : Option ConnTracker) :
    (admittedConnPre now entry).isBlocked = false := by
  cases entry with
  | none => rfl
  | some t =>
    by_cases h : t.isBlocked
    · simp [admittedConnPre, h]
    · simp [admittedConnPre, h]

lemma admittedDlPre_not_blocked (now : Nat) (entry : Option DlTracker) :
    (admittedDlPre now entry).isBlocked = false := by
  cases entry with
  | none => rfl
  | some t =>
    by_cases h : t.isBlocked
    · simp [admittedDlPre, h]
    · simp [admittedDlPre, h]

lemma connBlockCond_iff (now : Nat) (t : ConnTracker) :
    connBlockCond now t = true ↔
      (t.connections > min 100 (max 20 ((now - t.firstConnection) / 5000)) ∧
       now - t.firstConnection > 30000 ∧
       (2 * t.timeoutCount > max t.requestCount 1 ∨ t.connections > 50)) := by
  simp [connBlockCond, MAX_CONCURRENT_CONNECTIONS, SLOW_LORIS_GRACE_PERIOD,
    MAX_SLOW_CONNECTIONS, Bool.and_eq_true, Bool.or_eq_true, decide_eq_true_iff,
    and_assoc]

lemma addConnection_props (now : Nat) (pre : ConnTracker)
    (hpre : pre.isBlocked = false) :
    (addConnection now (some pre)).connections = pre.connections + 1 ∧
    (addConnection now (some pre)).requestCount = pre.requestCount + 1 ∧
    ((addConnection now (some pre)).isBlocked = true ↔
      connBlockCond now (connIncrement now pre) = true) ∧
    (connBlockCond now (connIncrement now pre) = true →
      (addConnection now (some pre)).blockUntil = now + 600000) := by
  unfold addConnection connBlockApply
  simp only [Option.getD_some]
  by_cases hc : connBlockCond now (connIncrement now pre)
  · rw [if_pos hc]
    refine ⟨by simp [connIncrement], by simp [connIncrement], ?_, ?_⟩
    · simp [hc]
    · intro _; simp [SLOW_LORIS_BLOCK_DURATION]
  · rw [if_neg hc]
    refine ⟨by simp [connIncrement], by simp [connIncrement], ?_, ?_⟩
    · constructor
      · intro hb
        have hfalse : (connIncrement now pre).isBlocked = false := by
          simp [connIncrement, hpre]
        rw [hfalse] at hb
        exact Bool.noConfusion hb
      · intro hco; exact absurd hco hc
    · intro hco; exact absurd hco hc

lemma connIncrement_fields (now : Nat) (pre : ConnTracker) :
    (connIncrement now pre).connections = pre.connections + 1 ∧
    (connIncrement now pre).requestCount = pre.requestCount + 1 ∧
    (connIncrement now pre).firstConnection = pre.firstConnection ∧
    (connIncrement now pre).timeoutCount = pre.timeoutCount := by
  simp [connIncrement]

lemma addConnection_stable_fields (now : Nat) (pre : ConnTracker) :
    (addConnection now (some pre)).firstConnection = pre.firstConnection ∧
    (addConnection now (some pre)).timeoutCount = pre.timeoutCount ∧
    (addConnection now (some pre)).connections = pre.connections + 1 ∧
    (addConnection now (some pre)).requestCount = pre.requestCount + 1 := by
  unfold addConnection connBlockApply
  simp only [Option.getD_some]
  by_cases hc : connBlockCond now (connIncrement now pre)
  · rw [if_pos hc]; simp [connIncrement]
  · rw [if_neg hc]; simp [connIncrement]

lemma addDownload_props (now : Nat) (pre : DlTracker)
    (hpre : pre.isBlocked = false) :
    (addDownload now (some pre)).activeDownloads = pre.activeDownloads + 1 ∧
    ((addDownload now (some pre)).isBlocked = true ↔ pre.activeDownloads + 1 > 5) ∧
    (pre.activeDownloads + 1 > 5 →
      (addDownload now (some pre)).blockUntil = now + 300000) := by
  unfold addDownload dlBlockApply
  simp only [Option.getD_some]
  have hact : (dlIncrement now pre).activeDownloads = pre.activeDownloads + 1 := by
    simp [dlIncrement]
  by_cases hc : (dlIncrement now pre).activeDownloads > DL_MAX_SLOW_DOWNLOADS
  · rw [if_pos hc]
    rw [hact, DL_MAX_SLOW_DOWNLOADS] at hc
    refine ⟨by simp [dlIncrement], ?_, ?_⟩
    · simp [hc]
    · intro _; simp [DL_BLOCK_DURATION]
  · rw [if_neg hc]
    rw [hact, DL_MAX_SLOW_DOWNLOADS] at hc
    refine ⟨by simp [dlIncrement], ?_, ?_⟩
    · constructor
      · intro hb
        have hfalse : (dlIncrement now pre).isBlocked = false := by
          simp [dlIncrement, hpre]
        rw [hfalse] at hb
        exact Bool.noConfusion hb
      · intro hco; exact absurd hco hc
    · intro hco; exact absurd hco hc

/-! ## Claim theorems -/

/-- C10: for every filename `validateMimeType` returns true — `getMimeType`
maps a (lower-cased) `.gz` extension to `application/gzip`, `.json` to
`application/json`, and every other extension to the fallback
`application/octet-stream`, and all three values are in the allowed-MIME
list, so the MIME check never rejects a name and is not an effective gate. -/
theorem c10_validateMimeType_always_true :
    (∀ f, validateMimeType f = true) ∧
    (∀ f, (extname f).map Char.toLower = ".gz".data →
      getMimeType f = "application/gzip") ∧
    (∀ f, (extname f).map Char.toLower = ".json".data →
      getMimeType f = "application/json") ∧
    (∀ f, (extname f).map Char.toLower ≠ ".gz".data →
      (extname f).map Char.toLower ≠ ".tar.gz".data →
      (extname f).map Char.toLower ≠ ".json".data →
      getMimeType f = "application/octet-stream") := by
  refine ⟨fun f => ?_, fun f h => ?_, fun f h => ?_, fun f h1 h2 h3 => ?_⟩
  · unfold validateMimeType getMimeType
    split_ifs <;> decide
  · unfold getMimeType
    rw [if_pos h]
  · unfold getMimeType
    have h1 : (extname f).map Char.toLower ≠ ".gz".data := by rw [h]; decide
    have h2 : (extname f).map Char.toLower ≠ ".tar.gz".data := by rw [h]; decide
    rw [if_neg h1, if_neg h2, if_pos h]
  · unfold getMimeType
    rw [if_neg h1, if_neg h2, if_neg h3]

/-- C10 witness: the three mapping branches at concrete filenames. -/
theorem c10_witness :
    (extname "file.gz").map Char.toLower = ".gz".data ∧
    getMimeType "file.gz" = "application/gzip" ∧
    (extname "x.JSON").map Char.toLower = ".json".data ∧
    getMimeType "x.JSON" = "application/json" ∧
    getMimeType "a.txt" = "application/octet-stream" :=
  ⟨by decide,
   c10_validateMimeType_always_true.2.1 "file.gz" (by decide),
   by decide,
   c10_validateMimeType_always_true.2.2.1 "x.JSON" (by decide),
   c10_validateMimeType_always_true.2.2.2 "a.txt" (by decide) (by decide) (by decide)⟩

/-- C8: an absent backup directory, or one with no entry passing the
extension allow-list, yields the successful empty catalog
`{snapshots: [], totalCount: 0}` and never an error response. -/
theorem c8_empty_catalog :
    (∀ statOk, getSnapshotsRoute none statOk = .ok [] 0) ∧
    (∀ files statOk, files.filter validateFileExtension = [] →
      getSnapshotsRoute (some files) statOk = .ok [] 0) := by
  refine ⟨fun statOk => rfl, fun files statOk h => ?_⟩
  simp [getSnapshotsRoute, sortByBlockIdDesc, h, List.insertionSort]

/-- C8 witness: a directory containing only a non-catalog file. -/
theorem c8_witness :
    (["README.txt"].filter validateFileExtension = ([] : List String)) ∧
    getSnapshotsRoute (some ["README.txt"]) (fun _ => false) = .ok [] 0 :=
  ⟨by decide, c8_empty_catalog.2 ["README.txt"] (fun _ => false) (by decide)⟩

/-- C5 counterexample: at t=1000000 the sweep deletes the entry of an IP
whose block expired at t=500000 even though the IP is anything but idle
(activity at t=1000000, 5 open connections); the claim says such a tracker
is retained. -/
theorem c5_counterexample :
    cleanupConnMap 1000000 [("203.0.113.7", expiredActiveTracker)] = [] ∧
    specConnSweepRemoves 1000000 expiredActiveTracker = false ∧
    expiredActiveTracker.connections ≠ 0 ∧
    1000000 - expiredActiveTracker.lastActivity = 0 := by decide

/-- C5 amended: the sweep removes a connection-tracker entry exactly when the
IP has been idle over 10 minutes with zero open connections, or its block has
expired — the latter regardless of idleness, so an expired-block tracker is
removed even while the IP is active. -/
theorem c5_sweep_exact (now : Nat) (m : List (String × ConnTracker))
    (ip : String) (t : ConnTracker) :
    (ip, t) ∈ cleanupConnMap now m ↔
      (ip, t) ∈ m ∧
      ¬ ((now - t.lastActivity > 600000 ∧ t.connections = 0) ∨
         (t.isBlocked = true ∧ t.blockUntil ≤ now)) := by
  simp only [cleanupConnMap, List.mem_filter, connSweepRemoves,
    Bool.not_eq_true', Bool.or_eq_false_iff, Bool.and_eq_false_iff]
  constructor
  · rintro ⟨hm, h1, h2⟩
    refine ⟨hm, ?_⟩
    rintro (⟨hidle, hconn⟩ | ⟨hb, hexp⟩)
    · rcases h1 with h | h
      · simp [hidle] at h
      · simp [hconn] at h
    · rcases h2 with h | h
      · rw [hb] at h; exact Bool.noConfusion h
      · simp [hexp] at h
  · rintro ⟨hm, h⟩
    rw [not_or] at h
    obtain ⟨ha, hb⟩ := h
    refine ⟨hm, ?_, ?_⟩
    · by_cases hidle : now - t.lastActivity > 600000
      · right
        by_cases hconn : t.connections = 0
        · exact absurd ⟨hidle, hconn⟩ ha
        · simpa using hconn
      · left; simpa using hidle
    · by_cases hblk : t.isBlocked
      · right
        by_cases hexp : t.blockUntil ≤ now
        · exact absurd ⟨hblk, hexp⟩ hb
        · simp; omega
      · left; simpa using hblk

/-- C1 counterexample: on a filesystem with no symlinks (`realpath` is the
identity), `/ab` is not a descendant of the base `/a`, yet `validatePath`
accepts it — the canonical-path comparison is a string-prefix test. -/
theorem c1_counterexample :
    validatePath id (fun s => some s) "/ab" "/a" = true ∧
    isDescendantOf "/ab" "/a" = false := by decide

/-- C1 amended: `validatePath` returns false whenever canonicalization fails
or the canonical base path is not a string prefix of the canonical candidate
path — so a symlink escaping to a location not sharing the base's prefix is
rejected — but containment is decided by string-prefix comparison of the
canonical paths, not by a descendant check. -/
theorem c1_validatePath_canonical (resolve : String → String)
    (realpath : String → Option String) (filePath baseDir : String) :
    (validatePath resolve realpath filePath baseDir = true →
      ∃ cp cb, realpath (resolve filePath) = some cp ∧
        realpath (resolve baseDir) = some cb ∧
        cb.data.isPrefixOf cp.data = true) ∧
    (∀ cp cb, realpath (resolve filePath) = some cp →
      realpath (resolve baseDir) = some cb →
      cb.data.isPrefixOf cp.data = false →
      validatePath resolve realpath filePath baseDir = false) ∧
    (realpath (resolve filePath) = none →
      validatePath resolve realpath filePath baseDir = false) ∧
    (realpath (resolve baseDir) = none →
      validatePath resolve realpath filePath baseDir = false) := by
  by_cases hpre : (resolve baseDir).data.isPrefixOf (resolve filePath).data
  · refine ⟨?_, ?_, ?_, ?_⟩
    · intro h
      rw [validatePath, if_pos hpre] at h
      cases hrp : realpath (resolve filePath) with
      | none => rw [hrp] at h; cases hrb : realpath (resolve baseDir) <;>
          rw [hrb] at h <;> exact Bool.noConfusion h
      | some cp =>
        cases hrb : realpath (resolve baseDir) with
        | none => rw [hrp, hrb] at h; exact Bool.noConfusion h
        | some cb => rw [hrp, hrb] at h; exact ⟨cp, cb, rfl, rfl, h⟩
    · intro cp cb hrp hrb hnp
      rw [validatePath, if_pos hpre, hrp, hrb]
      exact hnp
    · intro hrp
      rw [validatePath, if_pos hpre, hrp]
    · intro hrb
      rw [validatePath, if_pos hpre, hrb]
      cases realpath (resolve filePath) <;> rfl
  · have hfalse : validatePath resolve realpath filePath baseDir = false := by
      rw [validatePath, if_neg hpre]
    refine ⟨?_, fun _ _ _ _ _ => hfalse, fun _ => hfalse, fun _ => hfalse⟩
    intro h
    rw [hfalse] at h
    exact Bool.noConfusion h

/-- C1 witness: a symlink `/base/evil → /outside/secret` inside the base is
rejected by the canonical-path comparison. -/
theorem c1_witness :
    symlinkFS (id "/base/evil") = some "/outside/secret" ∧
    symlinkFS (id "/base") = some "/base" ∧
    ("/base".data.isPrefixOf "/outside/secret".data) = false ∧
    validatePath id symlinkFS "/base/evil" "/base" = false :=
  ⟨by decide, by decide, by decide,
   (c1_validatePath_canonical id symlinkFS "/base/evil" "/base").2.1
     "/outside/secret" "/base" (by decide) (by decide) (by decide)⟩

/-- C2: on every admitted non-download request the guard increments the IP's
`connections` and `requestCount`, and the entry becomes blocked for 10
minutes exactly when `connections > clamp(floor(elapsed/5s), 20, 100)` with
`elapsed = now - firstConnection`, and `elapsed > 30s`, and
(`timeoutRatio > 0.5` or `connections > 50`); while blocked, requests are
answered 429 until `blockUntil` passes. -/
theorem c2_connection_guard (now : Nat) (entry : Option ConnTracker) :
    (∀ t, entry = some t → t.isBlocked = true → now < t.blockUntil →
      slowLorisStep now entry = .reject (ceilSeconds (t.blockUntil - now))) ∧
    ((∀ t, entry = some t → t.isBlocked = true → t.blockUntil ≤ now) →
      ∃ t', slowLorisStep now entry = .admitted t' ∧
        t'.connections = (admittedConnPre now entry).connections + 1 ∧
        t'.requestCount = (admittedConnPre now entry).requestCount + 1 ∧
        (t'.isBlocked = true ↔
          (t'.connections > min 100 (max 20 ((now - t'.firstConnection) / 5000)) ∧
           now - t'.firstConnection > 30000 ∧
           (2 * t'.timeoutCount > max t'.requestCount 1 ∨ t'.connections > 50))) ∧
        (t'.isBlocked = true → t'.blockUntil = now + 600000)) := by
  constructor
  · rintro t rfl hb hlt
    rw [slowLorisStep, if_pos ⟨hb, hlt⟩]
  · intro hadm
    have key : ∀ pre, pre = admittedConnPre now entry →
        ∃ t', .admitted t' = ConnDecision.admitted (addConnection now (some pre)) ∧
          t'.connections = pre.connections + 1 ∧
          t'.requestCount = pre.requestCount + 1 ∧
          (t'.isBlocked = true ↔
            (t'.connections > min 100 (max 20 ((now - t'.firstConnection) / 5000)) ∧
             now - t'.firstConnection > 30000 ∧
             (2 * t'.timeoutCount > max t'.requestCount 1 ∨ t'.connections > 50))) ∧
          (t'.isBlocked = true → t'.blockUntil = now + 600000) := by
      intro pre hpredef
      have hpre : pre.isBlocked = false := by
        rw [hpredef]; exact admittedConnPre_not_blocked now entry
      obtain ⟨hco, hrq, hiff, hbu⟩ := addConnection_props now pre hpre
      obtain ⟨hfc, htc, hco2, hrq2⟩ := addConnection_stable_fields now pre
      refine ⟨addConnection now (some pre), rfl, hco, hrq, ?_, ?_⟩
      · rw [hiff, connBlockCond_iff]
        obtain ⟨ic, ir, ifc, itc⟩ := connIncrement_fields now pre
        rw [ic, ir, ifc, itc, ← hco2, ← hrq2, ← hfc, ← htc]
      · intro hb
        exact hbu (hiff.mp hb)
    cases entry with
    | none =>
      obtain ⟨t', ht', rest⟩ := key (admittedConnPre now none) rfl
      exact ⟨t', ht'.symm ▸ rfl, rest⟩
    | some t =>
      have hn : ¬(t.isBlocked = true ∧ now < t.blockUntil) := by
        rintro ⟨hb, hlt⟩
        exact absurd (hadm t rfl hb) (by omega)
      obtain ⟨t', ht', rest⟩ := key (admittedConnPre now (some t)) rfl
      refine ⟨t', ?_, rest⟩
      rw [slowLorisStep, if_neg hn]
      exact ht'.symm

/-- C2 witness: a blocked IP is answered 429 with the remaining block time,
and an admitted request from an IP at 51 open connections past the grace
period gets its counters incremented. -/
theorem c2_witness :
    blockedConnTracker.isBlocked = true ∧
    (1000 : Nat) < blockedConnTracker.blockUntil ∧
    slowLorisStep 1000 (some blockedConnTracker) = .reject 2 ∧
    (∃ t', slowLorisStep 40000 (some busyConnTracker) = .admitted t' ∧
      t'.connections = (admittedConnPre 40000 (some busyConnTracker)).connections + 1 ∧
      t'.requestCount = (admittedConnPre 40000 (some busyConnTracker)).requestCount + 1) := by
  refine ⟨rfl, by decide, ?_, ?_⟩
  · have h := (c2_connection_guard 1000 (some blockedConnTracker)).1
      blockedConnTracker rfl rfl (by decide)
    exact h.trans (by decide)
  · obtain ⟨t', ht', hco, hrq, -, -⟩ :=
      (c2_connection_guard 40000 (some busyConnTracker)).2
        (by intro t ht hb; injection ht with ht; subst ht; decide)
    exact ⟨t', ht', hco, hrq⟩

/-- C3: a download request that raises the IP's `activeDownloads` above the
strict cap of 5 (the 6th concurrent attempt) blocks the IP for 5 minutes, and
download attempts from a blocked IP are answered 429 until the block
expires. -/
theorem c3_download_cap (now : Nat) (entry : Option DlTracker) :
    (∀ t, entry = some t → t.isBlocked = true → now < t.blockUntil →
      handleDownloadProtection now entry = .reject (ceilSeconds (t.blockUntil - now))) ∧
    ((∀ t, entry = some t → t.isBlocked = true → t.blockUntil ≤ now) →
      ∃ t', handleDownloadProtection now entry = .admitted t' ∧
        t'.activeDownloads = (admittedDlPre now entry).activeDownloads + 1 ∧
        (t'.isBlocked = true ↔ (admittedDlPre now entry).activeDownloads + 1 > 5) ∧
        ((admittedDlPre now entry).activeDownloads + 1 > 5 →
          t'.blockUntil = now + 300000)) := by
  constructor
  · rintro t rfl hb hlt
    rw [handleDownloadProtection, if_pos ⟨hb, hlt⟩]
  · intro hadm
    have hpre : (admittedDlPre now entry).isBlocked = false :=
      admittedDlPre_not_blocked now entry
    obtain ⟨hact, hiff, hbu⟩ :=
      addDownload_props now (admittedDlPre now entry) hpre
    cases entry with
    | none =>
      exact ⟨addDownload now (some (admittedDlPre now none)), rfl, hact, hiff, hbu⟩
    | some t =>
      have hn : ¬(t.isBlocked = true ∧ now < t.blockUntil) := by
        rintro ⟨hb, hlt⟩
        exact absurd (hadm t rfl hb) (by omega)
      refine ⟨addDownload now (some (admittedDlPre now (some t))), ?_, hact, hiff, hbu⟩
      rw [handleDownloadProtection, if_neg hn]

/-- C3 witness: the 6th concurrent download from one IP (5 already active)
becomes blocked until now+300000, and a blocked IP's attempt is answered 429
with the remaining seconds. -/
theorem c3_witness :
    blockedDlTracker.isBlocked = true ∧
    (1000 : Nat) < blockedDlTracker.blockUntil ∧
    handleDownloadProtection 1000 (some blockedDlTracker) = .reject 4 ∧
    (∃ t', handleDownloadProtection 1000 (some fiveDlTracker) = .admitted t' ∧
      t'.activeDownloads = 6 ∧ t'.isBlocked = true ∧ t'.blockUntil = 301000) := by
  refine ⟨rfl, by decide, ?_, ?_⟩
  · have h := (c3_download_cap 1000 (some blockedDlTracker)).1
      blockedDlTracker rfl rfl (by decide)
    exact h.trans (by decide)
  · obtain ⟨t', ht', hact, hiff, hbu⟩ :=
      (c3_download_cap 1000 (some fiveDlTracker)).2
        (by intro t ht hb; injection ht with ht; subst ht; decide)
    have h6 : (admittedDlPre 1000 (some fiveDlTracker)).activeDownloads + 1 > 5 := by
      decide
    refine ⟨t', ht', ?_, hiff.mpr h6, hbu h6⟩
    rw [hact]
    decide

/-- C4 counterexample: mid-window (30 s before the reset of a window with its
quota exhausted) the over-limit attempt is answered 429 with `retryAfter` 60,
while the remaining seconds of the window are 30 — the hint is the constant
full window length, not the remaining time. -/
theorem c4_counterexample :
    (rlDownloadStep 30000 { hits := 10, resetAt := 60000 }).1 = some 60 ∧
    (60000 - 30000) / 1000 = 30 ∧
    (60 : Nat) ≠ 30 := by decide

/-- C4 amended: from a fresh window, `n` back-to-back download attempts admitted
exactly `min n 10` (at most 10 per window); an over-limit attempt is answered
429 with the constant `retryAfter` 60 (the full window length, not the
remaining seconds); a successfully completed download is uncounted from the
window (`skipSuccessfulRequests`). -/
theorem c4_download_rate_limit :
    (∀ now w n, now < w.resetAt →
      (runDlAttempts now w n).1 = min n (10 - w.hits)) ∧
    (∀ now w ra w2, rlDownloadStep now w = (some ra, w2) → ra = 60) ∧
    (∀ w, (rlUncountSuccess w).hits = w.hits - 1) := by
  refine ⟨?_, ?_, fun w => rfl⟩
  · intro now w n
    induction n generalizing w with
    | zero => intro h; simp [runDlAttempts]
    | succ n ih =>
      intro h
      have hr : rlReset now w = w := by
        rw [rlReset, if_neg (by omega)]
      have ihw := ih { hits := w.hits + 1, resetAt := w.resetAt } (by simpa using h)
      by_cases hh : w.hits + 1 > 10
      · have hstep : rlDownloadStep now w =
            (some 60, { hits := w.hits + 1, resetAt := w.resetAt }) := by
          rw [rlDownloadStep, rlStep, hr, if_pos (by simpa [hr] using hh)]
        simp [runDlAttempts, hstep, ihw]
        omega
      · have hstep : rlDownloadStep now w =
            (none, { hits := w.hits + 1, resetAt := w.resetAt }) := by
          rw [rlDownloadStep, rlStep, hr, if_neg (by simpa [hr] using hh)]
        simp [runDlAttempts, hstep, ihw]
        omega
  · intro now w ra w2 h
    rw [rlDownloadStep, rlStep] at h
    by_cases hh : (rlReset now w).hits + 1 > 10
    · rw [if_pos hh] at h
      injection h with h1 h2
      injection h1 with h1
      exact h1.symm
    · rw [if_neg hh] at h
      injection h with h1 h2
      exact Option.noConfusion h1

/-- C4 witness: 15 attempts from a fresh window admitted exactly 10; the 11th
hit of a window is rejected with `retryAfter` 60. -/
theorem c4_witness :
    (0 : Nat) < 60000 ∧
    (runDlAttempts 0 { hits := 0, resetAt := 60000 } 15).1 = min 15 (10 - 0) ∧
    rlDownloadStep 30000 { hits := 10, resetAt := 60000 } =
      (some 60, { hits := 11, resetAt := 60000 }) ∧
    (60 : Nat) = 60 := by
  refine ⟨by decide,
    c4_download_rate_limit.1 0 { hits := 0, resetAt := 60000 } 15 (by decide),
    by decide, ?_⟩
  exact c4_download_rate_limit.2.1 30000 { hits := 10, resetAt := 60000 }
    60 { hits := 11, resetAt := 60000 } (by decide)

/-- C6 counterexample: a request with a 501-char User-Agent from an IP whose
connection tracker is blocked is answered 429 (by the guard, which runs
before the header-length checks), not 400 as the claim requires. -/
theorem c6_counterexample :
    headerViolation oversizedUaRequest = true ∧
    (processRequest 1000 oversizedUaRequest blockedIpState).1 = .tooMany 2 ∧
    Response.tooMany 2 ≠ Response.badRequest := by decide

/-- C6 amended: the middleware order is guard admission first, then the
general rate limiter (skipped for download GETs), then the header-length
checks, then the route — so a header-violating request from a blocked or
rate-limited IP is answered 429, and a header-violating request from an
admitted IP is first counted by guard and limiter and then answered 400. -/
theorem c6_pipeline_order (now : Nat) (r : Request) (st : ServerState) :
    (r.isDownloadGet = false →
      (∀ ra, slowLorisStep now st.conn = .reject ra →
        (processRequest now r st).1 = .tooMany ra) ∧
      (∀ t' ra w2, slowLorisStep now st.conn = .admitted t' →
        rlGeneralStep now st.generalWindow = (some ra, w2) →
        (processRequest now r st).1 = .tooMany ra) ∧
      (∀ t' w2, slowLorisStep now st.conn = .admitted t' →
        rlGeneralStep now st.generalWindow = (none, w2) →
        headerViolation r = true →
        processRequest now r st =
          (.badRequest, { conn := some t', dl := st.dl, generalWindow := w2 })) ∧
      (∀ t' w2, slowLorisStep now st.conn = .admitted t' →
        rlGeneralStep now st.generalWindow = (none, w2) →
        headerViolation r = false →
        processRequest now r st =
          (.routed, { conn := some t', dl := st.dl, generalWindow := w2 }))) ∧
    (r.isDownloadGet = true →
      (∀ ra, handleDownloadProtection now st.dl = .reject ra →
        (processRequest now r st).1 = .tooMany ra) ∧
      (∀ t', handleDownloadProtection now st.dl = .admitted t' →
        headerViolation r = true →
        processRequest now r st =
          (.badRequest, { conn := st.conn, dl := some t',
                          generalWindow := st.generalWindow }))) := by
  constructor
  · intro hdl
    refine ⟨?_, ?_, ?_, ?_⟩
    · intro ra hs
      simp [processRequest, hdl, hs]
    · intro t' ra w2 hs hrl
      simp [processRequest, hdl, hs, hrl]
    · intro t' w2 hs hrl hv
      simp [processRequest, hdl, hs, hrl, hv]
    · intro t' w2 hs hrl hv
      simp [processRequest, hdl, hs, hrl, hv]
  · intro hdl
    refine ⟨?_, ?_⟩
    · intro ra hs
      simp [processRequest, hdl, hs]
    · intro t' hs hv
      simp [processRequest, hdl, hs, hv]

/-- C6 witness: the same header-violating request from a fresh, unblocked IP
is admitted by the guard, counted by the limiter, and answered 400. -/
theorem c6_witness :
    processRequest 1000 oversizedUaRequest freshIpState =
      (.badRequest, { conn := some (addConnection 1000 none), dl := none,
                      generalWindow := { hits := 1, resetAt := 60000 } }) :=
  ((c6_pipeline_order 1000 oversizedUaRequest freshIpState).1 rfl).2.2.1
    (addConnection 1000 none) { hits := 1, resetAt := 60000 }
    rfl (by decide) (by decide)

/-- C7: the catalog keeps exactly the entries passing the extension
allow-list and returns them sorted by descending parsed block id;
`extractBlockId` parses the digits after `snapshot_` (123 for the example)
and an unparsable name yields 0; block ids 100, 300, 200 come back in the
order 300, 200, 100. -/
theorem c7_catalog_sorted :
    extractBlockId "snapshot_123_2025-01-06_12-30-45.gz" = 123 ∧
    extractBlockId "invalid.gz" = 0 ∧
    (∀ files statOk kept n, getSnapshotsRoute (some files) statOk = .ok kept n →
      kept.Perm (files.filter validateFileExtension) ∧
      n = kept.length ∧
      kept.Pairwise (fun a b => extractBlockId b ≤ extractBlockId a)) ∧
    getSnapshotsRoute
        (some ["snapshot_100_2025-01-01_00-00-00.gz",
               "snapshot_300_2025-01-03_00-00-00.gz",
               "snapshot_200_2025-01-02_00-00-00.gz"]) (fun _ => true)
      = .ok ["snapshot_300_2025-01-03_00-00-00.gz",
             "snapshot_200_2025-01-02_00-00-00.gz",
             "snapshot_100_2025-01-01_00-00-00.gz"] 3 := by
  refine ⟨by decide, by decide, ?_, by decide⟩
  intro files statOk kept n h
  rw [getSnapshotsRoute] at h
  by_cases hall : (sortByBlockIdDesc (files.filter validateFileExtension)).all statOk
  · rw [if_pos hall] at h
    injection h with h1 h2
    subst h1
    subst h2
    refine ⟨?_, rfl, ?_⟩
    · exact List.perm_insertionSort blockIdDescRel (files.filter validateFileExtension)
    · exact List.sorted_insertionSort blockIdDescRel (files.filter validateFileExtension)
  · rw [if_neg hall] at h
    exact CatalogResponse.noConfusion h

/-- C7 witness: a singleton directory listing instantiates the ordering
statement. -/
theorem c7_witness :
    getSnapshotsRoute (some ["snapshot_7_2025-01-01_00-00-00.gz"]) (fun _ => true)
      = .ok ["snapshot_7_2025-01-01_00-00-00.gz"] 1 ∧
    (["snapshot_7_2025-01-01_00-00-00.gz"] : List String).Perm
      (["snapshot_7_2025-01-01_00-00-00.gz"].filter validateFileExtension) ∧
    (1 : Nat) = (["snapshot_7_2025-01-01_00-00-00.gz"] : List String).length := by
  have h := (c7_catalog_sorted.2.2.1 ["snapshot_7_2025-01-01_00-00-00.gz"]
    (fun _ => true) ["snapshot_7_2025-01-01_00-00-00.gz"] 1 (by decide))
  exact ⟨by decide, h.1, h.2.1⟩

/-- C9: `validateFilename(name)` is true exactly when the name is non-null,
non-empty, at most 255 chars, matches
`snapshot_<digits>_<YYYY-MM-DD>_<HH-MM-SS>.(gz|tar.gz|header.json)`, and
contains none of the dangerous substrings; in particular the spec's three
concrete examples. -/
theorem c9_validateFilename_exact :
    (∀ filename, validateFilename filename = true ↔
      ∃ s, filename = some s ∧ s ≠ "" ∧ s.length ≤ 255 ∧
        snapshotNamePattern s.data ∧
        ∀ c ∈ dangerousChars, containsSub c s.data = false) ∧
    validateFilename (some "snapshot_123_2025-01-06_12-30-45.gz") = true ∧
    validateFilename (some "../../../etc/passwd") = false ∧
    validateFilename none = false ∧
    validateFilename (some "") = false := by
  refine ⟨?_, by decide, by decide, rfl, by decide⟩
  intro filename
  cases filename with
  | none =>
    simp [validateFilename]
  | some s =>
    rw [validateFilename]
    by_cases h1 : s = "" ∨ s.length > MAX_FILENAME_LENGTH
    · rw [if_pos h1]
      constructor
      · intro h; exact Bool.noConfusion h
      · rintro ⟨s', hss, hne, hlen, -, -⟩
        injection hss with hss
        subst hss
        rcases h1 with h | h
        · exact absurd h hne
        · rw [MAX_FILENAME_LENGTH] at h; omega
    · rw [if_neg h1]
      push_neg at h1
      obtain ⟨hne, hlen⟩ := h1
      by_cases h2 : filenameRegexTest s.data
      · rw [if_neg (by simpa using h2)]
        constructor
        · intro h3
          refine ⟨s, rfl, hne, by rw [MAX_FILENAME_LENGTH] at hlen; omega,
            filenameRegexTest_iff.mp h2, ?_⟩
          intro c hc
          rw [Bool.not_eq_true', List.any_eq_false] at h3
          simpa using h3 c hc
        · rintro ⟨s', hss, -, -, -, hdang⟩
          injection hss with hss
          subst hss
          rw [Bool.not_eq_true', List.any_eq_false]
          intro c hc
          simp [hdang c hc]
      · rw [if_pos (by simpa using h2)]
        constructor
        · intro h; exact Bool.noConfusion h
        · rintro ⟨s', hss, -, -, hpat, -⟩
          injection hss with hss
          subst hss
          exact absurd (filenameRegexTest_iff.mpr hpat) h2

/-- C9 witness: the iff instantiated at the valid example name. -/
theorem c9_witness :
    ∃ s, some "snapshot_123_2025-01-06_12-30-45.gz" = some s ∧ s ≠ "" ∧
      s.length ≤ 255 ∧ snapshotNamePattern s.data ∧
      ∀ c ∈ dangerousChars, containsSub c s.data = false :=
  (c9_validateFilename_exact.1 (some "snapshot_123_2025-01-06_12-30-45.gz")).mp
    (by decide)

end HeliosSnapshots
